import Mathlib

/-!
Verification of the log-sentry agent's core against its specification.

The Go source is shallowly embedded: each Go function relevant to a claim
is translated into an executable Lean definition; the mutable state of a
component (the anomaly detector's map, the bolt store's buckets, the
resource recorder's active event) becomes an explicit state value threaded
through step functions.  Machine integers are modelled as Int/Nat, Go
float64 metrics as rationals, and instants as integer seconds (the code
only stores and compares them).
-/

namespace LogSentry

/-! ## Anomaly detector (src/internal/anomaly/detector.go)

State of one IP in the detector's map.  Go `IPStats` has Count404,
Count500 and LastSeen; `time.Time` is modelled as an integer number of
seconds (times are only stored and compared, never divided). -/

structure IPStats where
  count404 : Nat
  count500 : Nat
  lastSeen : ℤ
deriving DecidableEq

/-- Go `map[string]*IPStats`, modelled as a function to `Option`. -/
def DetectorState : Type := String → Option IPStats

/-- Empty detector map (state of a freshly constructed detector). -/
def emptyDetector : DetectorState := fun _ => none

/-- Default `Threshold404` from `NewAnomalyDetector`. -/
def threshold404 : Nat := 10

/-- Default `Threshold500` from `NewAnomalyDetector`. -/
def threshold500 : Nat := 20

/-- Default `Window` (1 minute) from `NewAnomalyDetector`, in seconds. -/
def detectorWindow : ℤ := 60

/-- Embedding of `(*AnomalyDetector).Check` (detector.go:62-93).
The Go method looks the entry up (creating a zero-value `IPStats` when
absent), unconditionally sets `LastSeen = time.Now()` (`now` here), then
increments and tests the counter matching `status`.  In Go the entry is a
pointer already stored in the map, so the final map always holds the final
struct; here the updated struct is written back explicitly.  The two
status tests are disjoint (`status` cannot be 404 and in [500,600) at
once), so the sequential Go `if`s are rendered as branches.  The returned
string is Go's `AnomalyType` ("" when no anomaly). -/
def check (st : DetectorState) (ip : String) (status : Int) (now : ℤ) :
    DetectorState × String :=
  let stat := (st ip).getD { count404 := 0, count500 := 0, lastSeen := 0 }
  let stat := { stat with lastSeen := now }
  if status = 404 then
    let stat := { stat with count404 := stat.count404 + 1 }
    let st1 : DetectorState := fun k => if k = ip then some stat else st k
    if stat.count404 > threshold404 then (st1, "404_flood") else (st1, "")
  else if 500 ≤ status ∧ status < 600 then
    let stat := { stat with count500 := stat.count500 + 1 }
    let st1 : DetectorState := fun k => if k = ip then some stat else st k
    if stat.count500 > threshold500 then (st1, "500_burst") else (st1, "")
  else
    (fun k => if k = ip then some stat else st k, "")

/-- Embedding of one pass of `(*AnomalyDetector).cleanupLoop`
(detector.go:40-59): entries idle for longer than `Window` are deleted,
the counters of every surviving entry are reset to zero. -/
def cleanupPass (st : DetectorState) (now : ℤ) : DetectorState :=
  fun ip =>
    match st ip with
    | none => none
    | some stat =>
        if now - stat.lastSeen > detectorWindow then none
        else some { stat with count404 := 0, count500 := 0 }

/-- An event in the life of the detector: either a `Check` call or one
pass of the cleanup goroutine (the two interleave arbitrarily at run
time). -/
inductive DetOp where
  | chk (ip : String) (status : Int) (now : ℤ)
  | sweep (now : ℤ)

/-- One step of the detector: `chk` runs `check` and yields its returned
anomaly string, `sweep` runs a cleanup pass. -/
def detStep (st : DetectorState) : DetOp → DetectorState × Option String
  | .chk ip status now => let (st1, r) := check st ip status now; (st1, some r)
  | .sweep now => (cleanupPass st now, none)

/-- Fold a trace of detector operations from a state. -/
def runOps (st : DetectorState) : List DetOp → DetectorState
  | [] => st
  | op :: ops => runOps (detStep st op).1 ops

/-- Outputs of a sequence of `Check` calls (no interleaved sweeps),
together with the final state. -/
def runChecks (st : DetectorState) :
    List (String × Int × ℤ) → DetectorState × List String
  | [] => (st, [])
  | (ip, status, now) :: rest =>
      let (st1, r) := check st ip status now
      let (st2, rs) := runChecks st1 rest
      (st2, r :: rs)

/-- Number of `chk ip 404 _` operations in a trace. -/
def num404 (ip : String) : List DetOp → Nat
  | [] => 0
  | .chk ip2 status _ :: ops =>
      (if ip2 = ip ∧ status = 404 then 1 else 0) + num404 ip ops
  | .sweep _ :: ops => num404 ip ops

/-- Current 404 counter of `ip` in a state (0 when the entry is absent). -/
def count404Of (st : DetectorState) (ip : String) : Nat :=
  ((st ip).map IPStats.count404).getD 0

theorem check_apply_ne (st : DetectorState) (ip2 : String) (status : Int)
    (now : ℤ) (ip : String) (h : ip ≠ ip2) :
    (check st ip2 status now).1 ip = st ip := by
  simp only [check]
  split
  · split <;> simp [h]
  · split
    · split <;> simp [h]
    · simp [h]

theorem check_count404_self (st : DetectorState) (ip : String)
    (status : Int) (now : ℤ) :
    count404Of (check st ip status now).1 ip =
      count404Of st ip + (if status = 404 then 1 else 0) := by
  simp only [check, count404Of]
  split
  · next h4 =>
      split <;> cases hst : st ip <;> simp [hst, h4]
  · next h4 =>
      split
      · split <;> cases hst : st ip <;> simp [hst, h4]
      · cases hst : st ip <;> simp [hst, h4]

theorem check_count404_le (st : DetectorState) (ip ip2 : String)
    (status : Int) (now : ℤ) :
    count404Of (check st ip2 status now).1 ip ≤
      count404Of st ip + (if ip2 = ip ∧ status = 404 then 1 else 0) := by
  by_cases hip : ip = ip2
  · subst hip
    rw [check_count404_self]
    by_cases h4 : status = 404 <;> simp [h4]
  · rw [show count404Of (check st ip2 status now).1 ip = count404Of st ip from
        congrArg (fun o => ((Option.map IPStats.count404 o).getD 0))
          (check_apply_ne st ip2 status now ip hip)]
    omega

theorem cleanupPass_count404 (st : DetectorState) (now : ℤ) (ip : String) :
    count404Of (cleanupPass st now) ip = 0 := by
  unfold cleanupPass count404Of
  cases hst : st ip <;> simp [hst]
  split <;> simp

/-- Invariant: along any trace the 404 counter of an IP grows by at most
the number of `chk ip 404` operations in the trace. -/
theorem count404_le_num404 (ops : List DetOp) (st : DetectorState)
    (ip : String) :
    count404Of (runOps st ops) ip ≤ count404Of st ip + num404 ip ops := by
  induction ops generalizing st with
  | nil => simp [runOps, num404]
  | cons op ops ih =>
      cases op with
      | chk ip2 status now =>
          have hstep := check_count404_le st ip ip2 status now
          simp only [runOps, detStep, num404]
          calc count404Of (runOps (check st ip2 status now).1 ops) ip
              ≤ count404Of (check st ip2 status now).1 ip + num404 ip ops :=
                ih _
            _ ≤ count404Of st ip +
                  ((if ip2 = ip ∧ status = 404 then 1 else 0) +
                    num404 ip ops) := by omega
      | sweep now =>
          simp only [runOps, detStep, num404]
          have := ih (cleanupPass st now)
          rw [cleanupPass_count404] at this
          omega

/-- Characterization of a `404_flood` report: `Check` returns it exactly
when the status is 404 and the incremented counter exceeds the
threshold. -/
theorem check_flood_iff (st : DetectorState) (ip : String) (status : Int)
    (now : ℤ) :
    (check st ip status now).2 = "404_flood" ↔
      status = 404 ∧ threshold404 < count404Of st ip + 1 := by
  simp only [check, count404Of]
  split
  · next h4 =>
      split
      · next hth =>
          cases hst : st ip <;> simp_all
      · next hth =>
          cases hst : st ip <;> simp_all
  · next h4 =>
      split
      · split <;> simp_all
      · simp_all

/-! ## Specification model of the anomaly detector (token-bucket variant)

Modelled from the spec: the spec (§4.3) describes a per-IP dual
token-bucket detector — `rate_404` tokens per second with
`capacity_404` (default 10 both), refill
`tokens ← min(capacity, tokens + (now − last_seen) · rate)` before each
consumption, a 404 reported as `Flood404` when the 404 bucket is empty
(`< 1`).  No such token-bucket code exists under src/ (the source
implements the periodic counter-reset variant embedded above); this
definition exists solely to state the divergence. -/

structure SpecBucket where
  tokens404 : ℚ
  tokens5xx : ℚ
  lastSeen : ℤ
deriving DecidableEq

/-- Modelled from the spec: default token rate and capacity for 404s. -/
def specRate404 : ℚ := 10

/-- Modelled from the spec: default capacity of the 404 bucket. -/
def specCapacity404 : ℚ := 10

/-- Modelled from the spec: default token rate and capacity for 5xx. -/
def specRate5xx : ℚ := 20

/-- Modelled from the spec: default capacity of the 5xx bucket. -/
def specCapacity5xx : ℚ := 20

/-- Modelled from the spec: one observation `check(ip, status)` of the
token-bucket detector of §4.3.  Non-404/5xx statuses return immediately;
a missing bucket is created at full capacity; an existing bucket is
refilled at the configured rates (capped at capacity) before one token is
consumed; a consumption finding fewer than one token reports the
anomaly. -/
def specCheck (st : String → Option SpecBucket) (ip : String)
    (status : Int) (now : ℤ) : (String → Option SpecBucket) × String :=
  if ¬(status = 404 ∨ (500 ≤ status ∧ status ≤ 599)) then (st, "")
  else
    let b :=
      match st ip with
      | none =>
          { tokens404 := specCapacity404, tokens5xx := specCapacity5xx,
            lastSeen := now }
      | some b =>
          let t4 := b.tokens404 + ((now - b.lastSeen : ℤ) : ℚ) * specRate404
          let t5 := b.tokens5xx + ((now - b.lastSeen : ℤ) : ℚ) * specRate5xx
          { tokens404 := if specCapacity404 ≤ t4 then specCapacity404 else t4,
            tokens5xx := if specCapacity5xx ≤ t5 then specCapacity5xx else t5,
            lastSeen := now }
    if status = 404 then
      if b.tokens404 < 1 then
        (fun k => if k = ip then some b else st k, "404_flood")
      else
        (fun k => if k = ip then
            some { b with tokens404 := b.tokens404 - 1 } else st k, "")
    else
      if b.tokens5xx < 1 then
        (fun k => if k = ip then some b else st k, "500_burst")
      else
        (fun k => if k = ip then
            some { b with tokens5xx := b.tokens5xx - 1 } else st k, "")

/-- Modelled from the spec: outputs of a sequence of spec-model checks. -/
def specRunChecks (st : String → Option SpecBucket) :
    List (String × Int × ℤ) → (String → Option SpecBucket) × List String
  | [] => (st, [])
  | (ip, status, now) :: rest =>
      let (st1, r) := specCheck st ip status now
      let (st2, rs) := specRunChecks st1 rest
      (st2, r :: rs)

/-- Eleven 404 observations from one IP, one second apart — ten times
slower than the spec's replenishment rate of 10 tokens/second, so under
the spec's token-bucket model the bucket is fully refilled before every
consumption. -/
def slow404Trace : List (String × Int × ℤ) :=
  (List.range 11).map (fun i => ("9.9.9.9", (404 : Int), (i : ℤ)))

/-- Eleven 404 observations from one IP within one second (all inside the
same one-second instant), as in end-to-end scenario 2 of the spec. -/
def fast404Trace : List (String × Int × ℤ) :=
  List.replicate 11 ("9.9.9.9", (404 : Int), (0 : ℤ))

/-! ## Analyzer (src/internal/analyzer/analyzer.go)

The analyzer matches a fixed set of RE2 regular expressions against the
request path (raw, URL-decoded and base64-decoded) and the user agent.
Strings are modelled as lists of characters; the patterns only contain
ASCII literals, `\s` and `\w`, so each compiled regex is embedded as a
hand-rolled scanner with exactly the source pattern's alternatives.
Go `(?i)` case folding is modelled by ASCII lowercasing (all pattern
literals are ASCII). -/

/-- ASCII lowercasing, the case folding relevant to the ASCII-only
patterns of the analyzer. -/
def asciiLower (c : Char) : Char :=
  if 'A' ≤ c ∧ c ≤ 'Z' then Char.ofNat (c.toNat + 32) else c

/-- RE2 `\s`: tab, newline, form feed, carriage return, space. -/
def isSpaceRE (c : Char) : Bool :=
  c = ' ' ∨ c = '\t' ∨ c = '\n' ∨ c = Char.ofNat 12 ∨ c = '\r'

/-- RE2 `\w`: ASCII letters, digits and underscore. -/
def isWordRE (c : Char) : Bool :=
  ('0' ≤ c ∧ c ≤ '9') ∨ ('a' ≤ c ∧ c ≤ 'z') ∨ ('A' ≤ c ∧ c ≤ 'Z') ∨ c = '_'

/-- Match a literal (given lowercase) case-insensitively at the start of
the input, then continue with `k`. -/
def litCI : List Char → (List Char → Bool) → List Char → Bool
  | [], k, s => k s
  | _ :: _, _, [] => false
  | p :: ps, k, c :: s => asciiLower c = p && litCI ps k s

/-- Match `\s*` at the start of the input, then continue with `k`. -/
def wsStar (k : List Char → Bool) : List Char → Bool
  | [] => k []
  | c :: s => k (c :: s) || (isSpaceRE c && wsStar k s)

/-- Match `\s+` at the start of the input, then continue with `k`. -/
def wsPlus (k : List Char → Bool) : List Char → Bool
  | [] => false
  | c :: s => isSpaceRE c && wsStar k s

/-- Match `\w*` at the start of the input, then continue with `k`. -/
def wordStar (k : List Char → Bool) : List Char → Bool
  | [] => k []
  | c :: s => k (c :: s) || (isWordRE c && wordStar k s)

/-- Match `\w+` at the start of the input, then continue with `k`. -/
def wordPlus (k : List Char → Bool) : List Char → Bool
  | [] => false
  | c :: s => isWordRE c && wordStar k s

/-- Scan the input: does `p` match at some position? -/
def containsPat (p : List Char → Bool) : List Char → Bool
  | [] => p []
  | c :: s => p (c :: s) || containsPat p s

/-- Continuation accepting any remainder (end of a regex alternative). -/
def patEnd : List Char → Bool := fun _ => true

/-- Alternatives of the compiled `sqliRegex`
`(?i)(union\s+select|or\s+1=1|\s+or\s+true|--|;\s*drop\s+table)`,
anchored at the current position. -/
def sqliAt (t : List Char) : Bool :=
  litCI "union".data (wsPlus (litCI "select".data patEnd)) t ||
  litCI "or".data (wsPlus (litCI "1=1".data patEnd)) t ||
  wsPlus (litCI "or".data (wsPlus (litCI "true".data patEnd))) t ||
  litCI "--".data patEnd t ||
  litCI ";".data (wsStar (litCI "drop".data
    (wsPlus (litCI "table".data patEnd)))) t

/-- Alternatives of the compiled `xssRegex`
`(?i)(<script|javascript:|on\w+=|alert\()`. -/
def xssAt (t : List Char) : Bool :=
  litCI "<script".data patEnd t ||
  litCI "javascript:".data patEnd t ||
  litCI "on".data (wordPlus (litCI "=".data patEnd)) t ||
  litCI "alert(".data patEnd t

/-- The compiled `pathTravRegex` literal pattern `\.\./\.\.`. -/
def pathTravAt (t : List Char) : Bool :=
  litCI "../..".data patEnd t

/-- Alternatives of the compiled `scannerRegex`
`(?i)(nessus|nmap|nikto|sqlmap|burp)`. -/
def scannerAt (t : List Char) : Bool :=
  litCI "nessus".data patEnd t || litCI "nmap".data patEnd t ||
  litCI "nikto".data patEnd t || litCI "sqlmap".data patEnd t ||
  litCI "burp".data patEnd t

/-- MatchString of `sqliRegex` on a string. -/
def sqliMatch (s : String) : Bool := containsPat sqliAt s.data

/-- MatchString of `xssRegex` on a string. -/
def xssMatch (s : String) : Bool := containsPat xssAt s.data

/-- MatchString of `pathTravRegex` on a string. -/
def pathTravMatch (s : String) : Bool := containsPat pathTravAt s.data

/-- MatchString of `scannerRegex` on a string. -/
def scannerMatch (s : String) : Bool := containsPat scannerAt s.data

/-- Hexadecimal digit test (Go `ishex`). -/
def isHexDigit (c : Char) : Bool :=
  ('0' ≤ c ∧ c ≤ '9') ∨ ('a' ≤ c ∧ c ≤ 'f') ∨ ('A' ≤ c ∧ c ≤ 'F')

/-- Value of a hexadecimal digit (Go `unhex`). -/
def hexVal (c : Char) : Nat :=
  if '0' ≤ c ∧ c ≤ '9' then c.toNat - '0'.toNat
  else if 'a' ≤ c ∧ c ≤ 'f' then c.toNat - 'a'.toNat + 10
  else if 'A' ≤ c ∧ c ≤ 'F' then c.toNat - 'A'.toNat + 10
  else 0

/-- Embedding of Go `url.QueryUnescape`: every `%xx` escape becomes the
byte it denotes (modelled as the character with that code point — the
inputs of interest are ASCII), `+` becomes a space, and a `%` not
followed by two hex digits is an error (`none`).  The Go fallback in
`DetectAttack` uses the raw path when this fails. -/
def queryUnescapeChars : List Char → Option (List Char)
  | [] => some []
  | '%' :: a :: b :: rest =>
      if isHexDigit a ∧ isHexDigit b then
        (queryUnescapeChars rest).map (fun r =>
          Char.ofNat (hexVal a * 16 + hexVal b) :: r)
      else none
  | '%' :: _ => none
  | '+' :: rest => (queryUnescapeChars rest).map (fun r => ' ' :: r)
  | c :: rest => (queryUnescapeChars rest).map (fun r => c :: r)

/-- Go `url.QueryUnescape` on a string. -/
def queryUnescape (s : String) : Option String :=
  (queryUnescapeChars s.data).map List.asString

/-- Value of a character in the standard base64 alphabet. -/
def b64Val (c : Char) : Option Nat :=
  if 'A' ≤ c ∧ c ≤ 'Z' then some (c.toNat - 'A'.toNat)
  else if 'a' ≤ c ∧ c ≤ 'z' then some (c.toNat - 'a'.toNat + 26)
  else if '0' ≤ c ∧ c ≤ '9' then some (c.toNat - '0'.toNat + 52)
  else if c = '+' then some 62
  else if c = '/' then some 63
  else none

/-- Decode base64 quanta of four characters; padding (`=`) is accepted
only in the final quantum, as in Go's `StdEncoding`. -/
def b64Quanta : List Char → Option (List Char)
  | [] => some []
  | c1 :: c2 :: c3 :: c4 :: rest =>
      match b64Val c1, b64Val c2 with
      | some v1, some v2 =>
          if c3 = '=' then
            if c4 = '=' ∧ rest = [] then
              some [Char.ofNat (v1 * 4 + v2 / 16)]
            else none
          else
            match b64Val c3 with
            | some v3 =>
                if c4 = '=' then
                  if rest = [] then
                    some [Char.ofNat (v1 * 4 + v2 / 16),
                          Char.ofNat (v2 % 16 * 16 + v3 / 4)]
                  else none
                else
                  match b64Val c4 with
                  | some v4 =>
                      (b64Quanta rest).map (fun r =>
                        Char.ofNat (v1 * 4 + v2 / 16) ::
                        Char.ofNat (v2 % 16 * 16 + v3 / 4) ::
                        Char.ofNat (v3 % 4 * 64 + v4) :: r)
                  | none => none
            | none => none
      | _, _ => none
  | _ => none

/-- Embedding of Go `base64.StdEncoding.DecodeString`: newlines are
ignored, the remaining length must be a multiple of four, characters must
be from the standard alphabet with padding only at the end.  Decoded
bytes are modelled as characters with the byte's code point. -/
def base64DecodeStd (s : String) : Option String :=
  (b64Quanta (s.data.filter (fun c => ¬(c = '\n' ∨ c = '\r')))).map
    List.asString

/-- Result of the analyzer, Go `AttackResult`. -/
structure AttackResult where
  detected : Bool
  type : String
  severity : String
deriving DecidableEq

/-- Check one candidate string against the three path rules in source
order (analyzer.go:140-148): SQL injection, then XSS, then path
traversal. -/
def checkTarget (t : String) : Option AttackResult :=
  if sqliMatch t then
    some { detected := true, type := "SQL Injection", severity := "critical" }
  else if xssMatch t then
    some { detected := true, type := "XSS", severity := "high" }
  else if pathTravMatch t then
    some { detected := true, type := "Path Traversal", severity := "high" }
  else none

/-- Loop of analyzer.go:139-149: try each candidate in order, first
match wins. -/
def scanTargets : List String → Option AttackResult
  | [] => none
  | t :: ts =>
      match checkTarget t with
      | some r => some r
      | none => scanTargets ts

/-- Candidate strings of `DetectAttack` (analyzer.go:120-137): the raw
path, the URL-decoded path (falling back to the raw path on a decode
error) and, when base64 decoding succeeds with a non-empty result, the
base64-decoded path. -/
def attackTargets (path : String) : List String :=
  let decodedPath := (queryUnescape path).getD path
  let b64Decoded := (base64DecodeStd path).getD ""
  [path, decodedPath] ++ (if b64Decoded ≠ "" then [b64Decoded] else [])

/-- Embedding of `(*Analyzer).DetectAttack` (analyzer.go:120-157). -/
def detectAttack (path userAgent : String) : AttackResult :=
  match scanTargets (attackTargets path) with
  | some r => r
  | none =>
      if scannerMatch userAgent then
        { detected := true, type := "Scanner", severity := "medium" }
      else
        { detected := false, type := "", severity := "" }

/-- Embedding of `(*Analyzer).CheckDataExfiltration`
(analyzer.go:160-166). -/
def checkDataExfiltration (bytesSent : Int) : AttackResult :=
  if bytesSent > 100 * 1024 * 1024 then
    { detected := true, type := "Data Exfiltration (Large Download)",
      severity := "high" }
  else
    { detected := false, type := "", severity := "" }

/-! ## Enricher (src/internal/enricher/enricher.go)

`ClassifyIP` delegates to Go's `net.ParseIP`, `IP.IsLoopback` and
`IP.IsPrivate`; those library functions are embedded below following the
Go standard library source (an IPv4 address is kept as its four octets,
an IPv6 address as its sixteen bytes). -/

/-- A parsed Go `net.IP`: either four IPv4 octets or sixteen IPv6
bytes. -/
inductive GoIP where
  | v4 (a b c d : Nat)
  | v6 (bytes : List Nat)
deriving DecidableEq

/-- Split a character list at every dot. -/
def splitOnDot : List Char → List (List Char)
  | [] => [[]]
  | '.' :: rest => [] :: splitOnDot rest
  | c :: rest =>
      match splitOnDot rest with
      | h :: t => (c :: h) :: t
      | [] => [[c]]

/-- One decimal field of a dotted quad (Go `dtoi` plus the checks of
`parseIPv4`, Go ≥ 1.17 semantics): a nonempty digit string with value at
most 255 and no leading zero. -/
def parseOctet (p : List Char) : Option Nat :=
  if p ≠ [] ∧ p.all (fun c => '0' ≤ c ∧ c ≤ '9') then
    let n := p.foldl (fun acc c => acc * 10 + (c.toNat - '0'.toNat)) 0
    if n ≤ 255 ∧ (1 < p.length → p.head? ≠ some '0') then some n else none
  else none

/-- Embedding of Go `parseIPv4`: exactly four dot-separated decimal
fields. -/
def parseIPv4 (s : String) : Option GoIP :=
  match splitOnDot s.data with
  | [p1, p2, p3, p4] =>
      match parseOctet p1, parseOctet p2, parseOctet p3, parseOctet p4 with
      | some a, some b, some c, some d => some (.v4 a b c d)
      | _, _, _, _ => none
  | _ => none

/-- Leading hexadecimal digits of a list of characters: their value and
how many there are (Go `xtoi`). -/
def xtoi : List Char → Nat × Nat
  | [] => (0, 0)
  | c :: s =>
      if isHexDigit c then
        let (n, cnt) := xtoi s
        -- value accumulates most-significant-first; recompute directly
        (hexVal c * 16 ^ cnt + n, cnt + 1)
      else (0, 0)

/-- Drop the leading hexadecimal digits (the characters `xtoi`
consumed). -/
def dropHex : List Char → List Char
  | [] => []
  | c :: s => if isHexDigit c then dropHex s else c :: s

/-- Body of the Go `parseIPv6` group loop.  `i` counts bytes already
produced (Go's index into the 16-byte result), `acc` holds them,
`ellipsis` is the byte position of `::` when seen.  `fuel` bounds the
recursion by the input length. -/
def parseV6Loop (fuel : Nat) (s : List Char) (i : Nat) (acc : List Nat)
    (ellipsis : Option Nat) : Option (List Nat × Option Nat × Nat) :=
  match fuel with
  | 0 => none
  | fuel + 1 =>
      if i < 16 then
        let t := xtoi s
        if t.2 = 0 ∨ t.1 > 0xFFFF then none
        else
          match dropHex s with
          | '.' :: _ =>
              -- an embedded dotted-quad tail, parsed from the group start
              if (ellipsis = none → i = 12) ∧ i + 4 ≤ 16 then
                match parseIPv4 (List.asString s) with
                | some (.v4 a b c d) =>
                    some (acc ++ [a, b, c, d], ellipsis, i + 4)
                | _ => none
              else none
          | [] => some (acc ++ [t.1 / 256, t.1 % 256], ellipsis, i + 2)
          | ':' :: [] => none
          | ':' :: ':' :: rest2 =>
              if ellipsis = none then
                match rest2 with
                | [] =>
                    some (acc ++ [t.1 / 256, t.1 % 256], some (i + 2), i + 2)
                | _ =>
                    parseV6Loop fuel rest2 (i + 2)
                      (acc ++ [t.1 / 256, t.1 % 256]) (some (i + 2))
              else none
          | ':' :: rest2 =>
              parseV6Loop fuel rest2 (i + 2)
                (acc ++ [t.1 / 256, t.1 % 256]) ellipsis
          | _ => none
      else
        -- sixteen bytes produced with input left over
        match s with
        | [] => some (acc, ellipsis, i)
        | _ => none

/-- Final assembly of Go `parseIPv6`: a short byte list is zero-filled
at the recorded `::` position; a full list must have seen no `::`. -/
def assembleV6 (r : Option (List Nat × Option Nat × Nat)) : Option GoIP :=
  match r with
  | none => none
  | some (bytes, ell, n) =>
      if n < 16 then
        match ell with
        | none => none
        | some e =>
            some (.v6 (bytes.take e ++ List.replicate (16 - n) 0 ++
              bytes.drop e))
      else
        match ell with
        | none => some (.v6 bytes)
        | some _ => none

/-- Embedding of Go `parseIPv6`: an optional leading `::`, then
colon-separated hexadecimal groups of at most 16 bits, an optional
embedded dotted quad, and zero-filling at the unique `::`. -/
def parseIPv6 (s : String) : Option GoIP :=
  match s.data with
  | ':' :: ':' :: [] => some (.v6 (List.replicate 16 0))
  | ':' :: ':' :: rest =>
      assembleV6 (parseV6Loop (rest.length + 1) rest 0 [] (some 0))
  | ':' :: _ => none
  | cs => assembleV6 (parseV6Loop (cs.length + 1) cs 0 [] none)

/-- Embedding of Go `net.ParseIP`: dispatch on the first `.` or `:` in
the string. -/
def parseIP (s : String) : Option GoIP :=
  match s.data.find? (fun c => c = '.' ∨ c = ':') with
  | some '.' => parseIPv4 s
  | some ':' => parseIPv6 s
  | _ => none

/-- Embedding of Go `IP.To4`: the IPv4 octets of an IPv4 address or an
IPv4-mapped IPv6 address (ten zero bytes then 0xFF 0xFF). -/
def GoIP.to4 : GoIP → Option (Nat × Nat × Nat × Nat)
  | .v4 a b c d => some (a, b, c, d)
  | .v6 bytes =>
      if bytes.take 12 = [0, 0, 0, 0, 0, 0, 0, 0, 0, 0, 255, 255] then
        match bytes.drop 12 with
        | [a, b, c, d] => some (a, b, c, d)
        | _ => none
      else none

/-- Embedding of Go `IP.IsLoopback`: first octet 127 for (possibly
mapped) IPv4, or the address `::1`. -/
def GoIP.isLoopback (ip : GoIP) : Bool :=
  match ip.to4 with
  | some (a, _, _, _) => a = 127
  | none =>
      match ip with
      | .v6 bytes =>
          bytes = [0, 0, 0, 0, 0, 0, 0, 0, 0, 0, 0, 0, 0, 0, 0, 1]
      | _ => false

/-- Embedding of Go `IP.IsPrivate`: RFC 1918 ranges for (possibly
mapped) IPv4, RFC 4193 (`fc00::/7`) for IPv6.  Link-local ranges are
not covered by this predicate. -/
def GoIP.isPrivate (ip : GoIP) : Bool :=
  match ip.to4 with
  | some (a, b, _, _) =>
      a = 10 ∨ (a = 172 ∧ b &&& 0xF0 = 16) ∨ (a = 192 ∧ b = 168)
  | none =>
      match ip with
      | .v6 bytes =>
          match bytes.head? with
          | some b0 => b0 &&& 0xFE = 0xFC
          | none => false
      | _ => false

/-- Embedding of `(*Enricher).ClassifyIP` (enricher.go:177-196). -/
def classifyIP (ipStr : String) : String :=
  if ipStr = "-" ∨ ipStr = "" then "unknown"
  else
    match parseIP ipStr with
    | none => "invalid"
    | some ip =>
        if ip.isLoopback then "loopback"
        else if ip.isPrivate then "internal"
        else "external"

/-- RFC 1918 private IPv4 ranges, written as the spec names them:
10.0.0.0/8, 172.16.0.0/12, 192.168.0.0/16 (applied to the IPv4 form of
the address). -/
def isRFC1918 (ip : GoIP) : Bool :=
  match ip.to4 with
  | some (a, b, _, _) =>
      a = 10 ∨ (a = 172 ∧ 16 ≤ b ∧ b ≤ 31) ∨ (a = 192 ∧ b = 168)
  | none => false

/-- IPv6 unique local addresses (ULA), `fc00::/7`: first byte 0xFC or
0xFD (on a non-IPv4-mapped IPv6 address). -/
def isULA (ip : GoIP) : Bool :=
  match ip.to4 with
  | some _ => false
  | none =>
      match ip with
      | .v6 bytes =>
          match bytes.head? with
          | some b0 => b0 = 0xFC ∨ b0 = 0xFD
          | none => false
      | _ => false

/-- Link-local addresses: IPv4 169.254.0.0/16 or IPv6 `fe80::/10`. -/
def isLinkLocal (ip : GoIP) : Bool :=
  match ip.to4 with
  | some (a, b, _, _) => a = 169 ∧ b = 254
  | none =>
      match ip with
      | .v6 bytes =>
          match bytes with
          | b0 :: b1 :: _ => b0 = 0xFE ∧ b1 &&& 0xC0 = 0x80
          | _ => false
      | _ => false

/-! ## Store (src/internal/discovery/discovery.go, package storage)

The bbolt database is modelled as four buckets: association lists keyed
by strings, plus the `app_state` status value.  Bucket `Put` replaces the
value of an existing key and otherwise adds the pair.  Timestamp strings
(RFC 3339 in the source) are carried as opaque strings; the random
`generateStoreID` and `time.Now` are supplied as parameters. -/

/-- Value of key `k` in a bucket. -/
def bget {V : Type} (l : List (String × V)) (k : String) : Option V :=
  match l with
  | [] => none
  | (k2, v) :: t => if k2 = k then some v else bget t k

/-- Bolt `Put`: replace the value at an existing key, otherwise add the
pair. -/
def bput {V : Type} (l : List (String × V)) (k : String) (v : V) :
    List (String × V) :=
  match l with
  | [] => [(k, v)]
  | (k2, v2) :: t => if k2 = k then (k, v) :: t else (k2, v2) :: bput t k v

/-- Go `CrashSummary` (discovery.go:669-678). -/
structure CrashSummary where
  id : String
  startedAt : String
  endedAt : String
  trigger : String
  verdict : String
  severity : String
  resolved : Bool
  snapshotCount : Int
deriving DecidableEq

/-- Go `AttackEntry` (discovery.go:681-693); the optional JSON fields
are carried as plain strings ("" when absent). -/
structure AttackEntry where
  id : String
  timestamp : String
  service : String
  type : String
  severity : String
  sourceIP : String
  endpoint : String
  country : String
  asn : String
  network : String
  details : String
deriving DecidableEq

/-- State of the bolt store: the four buckets of `NewBoltStore`.  A
crash-event value (a marshalled JSON blob in the source) is an opaque
string. -/
structure StoreState where
  status : Option String
  crashEvents : List (String × String)
  crashMeta : List (String × CrashSummary)
  attacks : List (String × AttackEntry)
deriving DecidableEq

/-- A store fresh from `NewBoltStore` before `checkAndMarkRunning` runs:
buckets exist and are empty, no status was ever written. -/
def freshStore : StoreState :=
  { status := none, crashEvents := [], crashMeta := [], attacks := [] }

/-- The summary text of the synthetic forceful-shutdown event
(discovery.go:283-292). -/
def forcefulShutdownSummary (nowStr id : String) : CrashSummary :=
  { id := id
    startedAt := nowStr
    endedAt := nowStr
    trigger := "Forceful Shutdown / Power Loss"
    verdict := "The application was forcefully terminated (e.g., SIGKILL, OOM Killer, or sudden power loss) without a clean exit."
    severity := "critical"
    resolved := true
    snapshotCount := 0 }

/-- Embedding of `(*BoltStore).checkAndMarkRunning` (discovery.go:270-305),
run inside `NewBoltStore` after the buckets are created: when the stored
status is the string "running" the previous process died without calling
`MarkStopped`, and one synthetic critical crash event is persisted (full
blob and summary) under a fresh id; in every case the status is then set
to "running".  `nowStr` stands for `time.Now().Format(time.RFC3339)` and
`id` for `generateStoreID()`. -/
def checkAndMarkRunning (st : StoreState) (nowStr id : String) : StoreState :=
  if st.status = some "running" then
    { st with
        crashEvents := bput st.crashEvents id
          "JSON error blob: no snapshots available, system terminated abruptly"
        crashMeta := bput st.crashMeta id (forcefulShutdownSummary nowStr id)
        status := some "running" }
  else
    { st with status := some "running" }

/-- Embedding of `(*BoltStore).MarkStopped` (discovery.go:308-313). -/
def markStopped (st : StoreState) : StoreState :=
  { st with status := some "stopped" }

/-- Embedding of `(*BoltStore).Close` (discovery.go:614-618): marks the
state stopped (the bbolt file close itself has no modelled effect). -/
def closeStore (st : StoreState) : StoreState :=
  markStopped st

/-- Embedding of `(*BoltStore).SaveAttack` (discovery.go:438-454): a
missing id or timestamp is filled in, and the entry is stored under the
key `timestamp_id`. -/
def saveAttack (st : StoreState) (entry : AttackEntry) (genID nowStr : String) :
    StoreState :=
  let entry := if entry.id = "" then { entry with id := genID } else entry
  let entry :=
    if entry.timestamp = "" then { entry with timestamp := nowStr } else entry
  { st with
      attacks := bput st.attacks (entry.timestamp ++ "_" ++ entry.id) entry }

/-- Go `ListOpts` (discovery.go:709-717).  The `Since`/`Until` filters
parse RFC 3339 timestamps; no claim exercises them and they are left at
their zero value (no filtering), so they are not carried here. -/
structure ListOpts where
  page : Int
  pageSize : Int
  severity : String
  trigger : String
  service : String
deriving DecidableEq

/-- Go `ListResult` (discovery.go:720-726). -/
structure ListResult (α : Type) where
  items : List α
  total : Int
  page : Int
  pageSize : Int
  totalPages : Int
deriving DecidableEq

/-- Embedding of `normalizeOpts` (discovery.go:622-630): a page below 1
becomes 1; a page size below 1 or above 100 becomes the default 20. -/
def normalizeOpts (opts : ListOpts) : ListOpts :=
  let opts := if opts.page < 1 then { opts with page := 1 } else opts
  if opts.pageSize < 1 ∨ opts.pageSize > 100 then
    { opts with pageSize := 20 }
  else opts

/-- Embedding of `paginate` (discovery.go:632-655). -/
def paginate {α : Type} (all : List α) (opts : ListOpts) : ListResult α :=
  let total : Int := all.length
  let totalPages := (total + opts.pageSize - 1) / opts.pageSize
  let totalPages := if totalPages < 1 then 1 else totalPages
  let start := (opts.page - 1) * opts.pageSize
  if start ≥ total then
    { items := [], total := total, page := opts.page,
      pageSize := opts.pageSize, totalPages := totalPages }
  else
    let stop := if start + opts.pageSize > total then total
      else start + opts.pageSize
    { items := ((all.drop start.toNat).take (stop - start).toNat),
      total := total, page := opts.page, pageSize := opts.pageSize,
      totalPages := totalPages }

/-- Go `strings.EqualFold`, modelled for ASCII (every filter string in
the claims is ASCII). -/
def equalFold (a b : String) : Bool :=
  a.data.map asciiLower = b.data.map asciiLower

/-- Insert into a list ordered descending by `key` (first position whose
element does not exceed the inserted one). -/
def insertByDesc {α : Type} (key : α → String) (x : α) :
    List α → List α
  | [] => [x]
  | y :: ys => if key y ≤ key x then x :: y :: ys else y :: insertByDesc key x ys

/-- Sort descending by `key`; models the source's
`sort.Slice(all, ...StartedAt > ...)` newest-first sort. -/
def sortByKeyDesc {α : Type} (key : α → String) (l : List α) : List α :=
  l.foldr (insertByDesc key) []

/-- Embedding of `(*BoltStore).ListAttacks` (discovery.go:456-498):
collect the bucket's entries, filter by severity and service
(case-insensitively, empty filter matching everything), sort newest
first by timestamp, paginate with normalized options. -/
def listAttacks (st : StoreState) (opts0 : ListOpts) : ListResult AttackEntry :=
  let opts := normalizeOpts opts0
  let all := (st.attacks.map Prod.snd).filter (fun ae =>
    (opts.severity = "" ∨ equalFold ae.severity opts.severity) ∧
    (opts.service = "" ∨ equalFold ae.service opts.service))
  paginate (sortByKeyDesc AttackEntry.timestamp all) opts

/-- Embedding of `(*BoltStore).ListCrashEvents` (discovery.go:355-397):
collect the summaries, filter by severity and trigger, sort newest first
by start time, paginate with normalized options. -/
def listCrashEvents (st : StoreState) (opts0 : ListOpts) :
    ListResult CrashSummary :=
  let opts := normalizeOpts opts0
  let all := (st.crashMeta.map Prod.snd).filter (fun cs =>
    (opts.severity = "" ∨ equalFold cs.severity opts.severity) ∧
    (opts.trigger = "" ∨ equalFold cs.trigger opts.trigger))
  paginate (sortByKeyDesc CrashSummary.startedAt all) opts

/-! ## Worker pool (src/unnamed/part_005, package worker)

A `Job` carries the parse outcome directly: the `Parser` interface is an
external collaborator whose `Parse` result (a `GenericLogEntry` or an
error) is the only thing the worker consumes.  The worker body
(part_005:47-82) parses, overwrites the service tag, runs the analyzer
(falling back to the exfiltration check when nothing was detected), runs
the anomaly detector, classifies the IP, and hands everything to
`Collector.ProcessWeb` (a metrics sink).  The `Pool` struct has no store
handle; the system store is threaded here to make that visible. -/

/-- Go `parser.GenericLogEntry`, the normalized web-log record (fields
the worker reads). -/
structure GenericLogEntry where
  remoteIP : String
  remoteUser : String
  method : String
  path : String
  protocol : String
  status : Int
  bodyBytesSent : Int
  referer : String
  userAgent : String
  service : String
deriving DecidableEq

/-- Go `worker.Job`; `parseResult` is the outcome of
`job.Parser.Parse(job.Line)`. -/
structure Job where
  serviceName : String
  logPath : String
  parseResult : Option GenericLogEntry
deriving DecidableEq

/-- One `Collector.ProcessWeb` invocation observed by the metrics
sink. -/
structure ProcessWebCall where
  entry : GenericLogEntry
  attack : AttackResult
  anomaly : String
  networkType : String
deriving DecidableEq

/-- Shared state a worker can reach: the anomaly-detector map and the
bolt store. -/
structure SystemState where
  det : DetectorState
  store : StoreState

/-- Embedding of one iteration of `(*Pool).worker` (part_005:47-82): a
parse error drops the job; otherwise the record's service is overwritten
with the job's, the analyzer runs (with the exfiltration check as
fallback when nothing is detected), the anomaly detector and IP
classification run, and the result goes to the collector.  The returned
list holds the metrics calls made. -/
def workerStep (sys : SystemState) (job : Job) (now : ℤ) :
    SystemState × List ProcessWebCall :=
  match job.parseResult with
  | none => (sys, [])
  | some entry0 =>
      let entry := { entry0 with service := job.serviceName }
      let attack := detectAttack entry.path entry.userAgent
      let attack :=
        if ¬attack.detected then
          let exfil := checkDataExfiltration entry.bodyBytesSent
          if exfil.detected then exfil else attack
        else attack
      let (det1, anomalyType) := check sys.det entry.remoteIP entry.status now
      let netType := classifyIP entry.remoteIP
      ({ sys with det := det1 },
        [{ entry := entry, attack := attack, anomaly := anomalyType,
           networkType := netType }])

/-- The nginx access-log line of end-to-end scenario 1, as parsed: a GET
of `/index.php?id=1+UNION+SELECT+1` from 1.2.3.4 with status 200 and 512
bytes sent. -/
def scenario1Entry : GenericLogEntry :=
  { remoteIP := "1.2.3.4"
    remoteUser := "-"
    method := "GET"
    path := "/index.php?id=1+UNION+SELECT+1"
    protocol := "HTTP/1.1"
    status := 200
    bodyBytesSent := 512
    referer := "-"
    userAgent := "Mozilla/5.0"
    service := "" }

/-- The scenario-1 job as a worker receives it. -/
def scenario1Job : Job :=
  { serviceName := "nginx", logPath := "/var/log/nginx/access.log",
    parseResult := some scenario1Entry }

/-! ## Resource recorder (src/unnamed/part_010, package recorder)

The poll loop reads aggregate metrics, determines a trigger, and drives
the crash-event state machine.  The metric readings, the tick time and
the fresh event id are per-tick inputs (`Reading`); metrics are rational
numbers standing for Go float64 values.  The per-process scan feeding
`top_processes`/`oom_leaders`, the heartbeat write, the Loki pushes, the
Prometheus gauges and `fetchProcessDetails` affect no claim and are not
carried in the snapshot model; the forensic `Analyze` producing
`(verdict, severity)` is passed in as a function parameter. -/

/-- Go `GPUSnapshot` (part_010:49-55). -/
structure GPUSnap where
  id : Int
  utilPct : Int
  memUsedMB : Int
  memTotalMB : Int
  tempC : Int
deriving DecidableEq

/-- Go `Snapshot` (part_010:58-67), restricted to the aggregate fields
set by `takeFullSnapshot`. -/
structure RSnapshot where
  ts : ℤ
  totalCpuPct : ℚ
  totalMemPct : ℚ
  totalMemGB : ℚ
  diskPct : ℚ
  gpus : List GPUSnap
deriving DecidableEq

/-- Go `CrashEvent` (part_010:70-81).  The source's trigger string
`"<metric>:<value>%"` is carried as the metric tag and the unformatted
value. -/
structure RecCrashEvent where
  id : String
  startedAt : ℤ
  endedAt : ℤ
  triggerMetric : String
  triggerValue : ℚ
  verdict : String
  severity : String
  resolved : Bool
  snapshots : List RSnapshot
deriving DecidableEq

/-- Inputs consumed by one `poll` tick: the tick instant, the four
aggregate readings (`readCPUUsage`, `readMemInfo`, `readDiskUsage`,
`ReadGPUs`) and the id `generateID()` would produce if a new event
starts. -/
structure Reading where
  now : ℤ
  cpu : ℚ
  mem : ℚ
  memGB : ℚ
  disk : ℚ
  gpus : List GPUSnap
  freshId : String
deriving DecidableEq

/-- The maximum GPU memory percentage computed at the top of `poll`
(part_010:330-343): GPUs with a zero memory total are skipped. -/
def maxGPUPct (gpus : List GPUSnap) : ℚ :=
  gpus.foldl (fun acc g =>
    if g.memTotalMB > 0 then
      let pct := (g.memUsedMB : ℚ) / (g.memTotalMB : ℚ) * 100
      if pct > acc then pct else acc
    else acc) 0

/-- Trigger determination of `poll` (part_010:346-356): the first of
cpu, mem, disk, gpu to be at or above the threshold. -/
def pollTrigger (θ : ℚ) (rd : Reading) : Option (String × ℚ) :=
  if rd.cpu ≥ θ then some ("cpu", rd.cpu)
  else if rd.mem ≥ θ then some ("mem", rd.mem)
  else if rd.disk ≥ θ then some ("disk", rd.disk)
  else if maxGPUPct rd.gpus ≥ θ then some ("gpu", maxGPUPct rd.gpus)
  else none

/-- Aggregate part of `takeFullSnapshot` (part_010:456-464): the
snapshot is stamped with the tick instant and the aggregate readings. -/
def takeFullSnapshot (rd : Reading) : RSnapshot :=
  { ts := rd.now, totalCpuPct := rd.cpu, totalMemPct := rd.mem,
    totalMemGB := rd.memGB, diskPct := rd.disk, gpus := rd.gpus }

/-- The constructor's hysteresis (part_010:144):
`hysteresis: cfg.Threshold - 5`. -/
def recorderHysteresis (threshold : ℚ) : ℚ := threshold - 5

/-- Embedding of one `poll` tick (part_010:317-453) acting on the
active-event state.  Returns the new active event and the closed event
passed to `SaveCrashEvent`, if any.  With a trigger, a missing active
event is created (fresh id, `StartedAt` = snapshot time) and the
snapshot is appended with `EndedAt` updated; with no trigger and an
active event, the event is closed only when every metric is strictly
below the hysteresis, in which case `Analyze` fills verdict and
severity, `Resolved` is set, and the event is persisted; otherwise
nothing changes. -/
def pollStep (θ hyst : ℚ) (analyze : List RSnapshot → String × String)
    (st : Option RecCrashEvent) (rd : Reading) :
    Option RecCrashEvent × Option RecCrashEvent :=
  let snap := takeFullSnapshot rd
  match pollTrigger θ rd with
  | some trig =>
      let ev : RecCrashEvent :=
        match st with
        | none =>
            { id := rd.freshId, startedAt := snap.ts, endedAt := 0,
              triggerMetric := trig.1, triggerValue := trig.2,
              verdict := "", severity := "", resolved := false,
              snapshots := [] }
        | some e => e
      let ev :=
        { ev with snapshots := ev.snapshots ++ [snap], endedAt := snap.ts }
      (some ev, none)
  | none =>
      match st with
      | some e =>
          if rd.cpu < hyst ∧ rd.mem < hyst ∧ rd.disk < hyst ∧
              maxGPUPct rd.gpus < hyst then
            let vs := analyze e.snapshots
            (none, some { e with verdict := vs.1, severity := vs.2,
                                 resolved := true })
          else (some e, none)
      | none => (none, none)

/-- Run a sequence of poll ticks, collecting every event persisted via
`SaveCrashEvent`. -/
def pollRun (θ hyst : ℚ) (analyze : List RSnapshot → String × String)
    (st : Option RecCrashEvent) :
    List Reading → Option RecCrashEvent × List RecCrashEvent
  | [] => (st, [])
  | rd :: rds =>
      let s := pollStep θ hyst analyze st rd
      let r := pollRun θ hyst analyze s.1 rds
      (r.1, s.2.toList ++ r.2)

/-- A metric reading with all aggregates quiet except the given CPU
percentage (mem, disk low; no GPUs), as in the hysteresis scenario. -/
def cpuReading (now : ℤ) (cpu : ℚ) (freshId : String) : Reading :=
  { now := now, cpu := cpu, mem := 10, memGB := 16, disk := 10,
    gpus := [], freshId := freshId }

/-- The hysteresis scenario of the spec (end-to-end scenario 4): four
ticks with cpu 95, 88, 86, 84 and every other metric quiet. -/
def hysteresisScenario : List Reading :=
  [cpuReading 0 95 "ev1", cpuReading 5 88 "ev2",
   cpuReading 10 86 "ev3", cpuReading 15 84 "ev4"]

/-- A trivial stand-in for the forensic `Analyze` function (its output
does not affect any claim about snapshots or timestamps). -/
def trivialAnalyze : List RSnapshot → String × String :=
  fun _ => ("verdict", "high")

/-! ## Helper lemmas -/

/-- Bucket lookup after a put at the same key. -/
theorem bget_bput_self {V : Type} (l : List (String × V)) (k : String)
    (v : V) : bget (bput l k v) k = some v := by
  induction l with
  | nil => simp [bput, bget]
  | cons p t ih =>
      obtain ⟨k2, v2⟩ := p
      by_cases h : k2 = k <;> simp [bput, bget, h, ih]

/-- Bucket lookup after a put at a different key. -/
theorem bget_bput_ne {V : Type} (l : List (String × V)) (k : String)
    (v : V) (k2 : String) (h : k2 ≠ k) :
    bget (bput l k v) k2 = bget l k2 := by
  induction l with
  | nil => simp [bput, bget, Ne.symm h]
  | cons p t ih =>
      obtain ⟨k3, v3⟩ := p
      simp only [bput]
      by_cases h3 : k3 = k
      · subst h3
        simp [bget, Ne.symm h]
      · simp only [if_neg h3, bget]
        by_cases h2 : k3 = k2 <;> simp [h2, ih]

/-- A put at a fresh key grows the bucket by exactly one pair. -/
theorem length_bput_fresh {V : Type} (l : List (String × V)) (k : String)
    (v : V) (h : bget l k = none) :
    (bput l k v).length = l.length + 1 := by
  induction l with
  | nil => simp [bput]
  | cons p t ih =>
      obtain ⟨k2, v2⟩ := p
      by_cases h2 : k2 = k
      · simp [bget, h2] at h
      · simp [bget, h2] at h
        simp [bput, h2, ih h]

/-- The entry a `Check` call leaves for its IP always carries the call's
`now` as `LastSeen`. -/
theorem check_lastSeen_self (st : DetectorState) (ip : String)
    (status : Int) (now : ℤ) :
    ((check st ip status now).1 ip).map IPStats.lastSeen = some now := by
  simp only [check]
  split
  · split <;> simp
  · split
    · split <;> simp
    · simp

/-- Appending one operation adds its own contribution to `num404`. -/
theorem num404_append (ip : String) (ops : List DetOp) (op : DetOp) :
    num404 ip (ops ++ [op]) = num404 ip ops + num404 ip [op] := by
  induction ops with
  | nil => simp [num404]
  | cons o os ih =>
      cases o <;> simp [num404, ih] <;> omega

/-! ## Claim theorems -/

/-- C8.  With the default configuration, eleven consecutive
`check(ip, 404)` calls on one IP within one second return the empty
(no-anomaly) answer ten times and `404_flood` on the eleventh: the
counter reaches 11 > Threshold404 = 10 only on the last call. -/
theorem eleven_404s_flood_on_eleventh :
    (runChecks emptyDetector fast404Trace).2 =
      List.replicate 10 "" ++ ["404_flood"] := by
  decide

/-- C3 (as amended).  `Check` reports `404_flood` for an IP only after
more than `Threshold404 = 10` 404 observations of that IP have arrived
in the whole trace (counter resets by the sweeper can only delay the
report, never hasten it); the source has no token bucket and no
rate-based refill. -/
theorem flood404_only_after_threshold (ops : List DetOp) (ip : String)
    (status : Int) (t : ℤ)
    (h : (check (runOps emptyDetector ops) ip status t).2 = "404_flood") :
    threshold404 < num404 ip (ops ++ [.chk ip status t]) := by
  rw [check_flood_iff] at h
  obtain ⟨h4, hcount⟩ := h
  subst h4
  have hbound := count404_le_num404 ops emptyDetector ip
  have hzero : count404Of emptyDetector ip = 0 := rfl
  rw [hzero] at hbound
  rw [num404_append]
  have h1 : num404 ip [DetOp.chk ip 404 t] = 1 := by simp [num404]
  rw [h1]
  omega

/-- Witness for the C3 theorem: after ten 404s from 9.9.9.9 the eleventh
observation reports the flood, and the trace indeed contains more than
ten 404 operations for that IP. -/
theorem flood404_only_after_threshold_witness :
    threshold404 <
      num404 "9.9.9.9"
        (List.replicate 10 (DetOp.chk "9.9.9.9" 404 0) ++
          [DetOp.chk "9.9.9.9" 404 0]) :=
  flood404_only_after_threshold
    (List.replicate 10 (DetOp.chk "9.9.9.9" 404 0)) "9.9.9.9" 404 0
    (by decide)

/-- C3 counterexample.  Eleven 404s one second apart — ten times slower
than the spec's replenishment rate of 10 tokens/second, so slow that the
spec's token bucket is full before every consumption and never reports —
still make the source's counter-based `Check` return `404_flood` on the
eleventh call (no sweeper pass intervenes in the ten-second span, which
is shorter than the one-minute window). -/
theorem slow_404s_still_flood_counterexample :
    (runChecks emptyDetector slow404Trace).2.getLast? = some "404_flood" ∧
    (specRunChecks (fun _ => none) slow404Trace).2 =
      List.replicate 11 "" ∧
    (1 : ℚ) * specRate404 ≥ 1 := by
  refine ⟨by decide, ?_, by norm_num [specRate404]⟩
  norm_num [slow404Trace, List.range_succ, specRunChecks, specCheck,
    specCapacity404, specCapacity5xx, specRate404, specRate5xx,
    List.replicate]

/-- C1.  The worker never writes to the store: its only effects are the
anomaly-detector update and a metrics call.  On the spec's scenario-1
input the analyzer does detect a critical SQL injection, yet the attacks
bucket stays empty and `ListAttacks` returns nothing — no `AttackEntry`
with `source_ip = 1.2.3.4` is ever persisted. -/
theorem worker_never_persists_attacks :
    (∀ (sys : SystemState) (job : Job) (now : ℤ),
        (workerStep sys job now).1.store = sys.store) ∧
    detectAttack scenario1Entry.path scenario1Entry.userAgent =
      { detected := true, type := "SQL Injection", severity := "critical" } ∧
    (listAttacks
        (workerStep { det := emptyDetector, store := freshStore }
          scenario1Job 0).1.store
        { page := 1, pageSize := 20, severity := "", trigger := "",
          service := "" }).items = [] := by
  refine ⟨?_, by decide, by decide⟩
  intro sys job now
  cases h : job.parseResult <;> simp [workerStep, h]

/-- C10 (as amended).  Every `Check` call — whatever the status —
creates the IP's entry when absent and stamps it with `LastSeen = now`
before returning, leaves every other IP's entry untouched, and the entry
survives any sweeper pass within the window (with its counters reset to
zero by that pass). -/
theorem check_always_touches_entry (st : DetectorState) (ip : String)
    (status : Int) (now : ℤ) :
    ((check st ip status now).1 ip).map IPStats.lastSeen = some now ∧
    (∀ ip2, ip2 ≠ ip → (check st ip status now).1 ip2 = st ip2) ∧
    (∀ t : ℤ, ¬(t - now > detectorWindow) →
        ((cleanupPass (check st ip status now).1 t) ip).map
          IPStats.lastSeen = some now) := by
  refine ⟨check_lastSeen_self st ip status now, ?_, ?_⟩
  · intro ip2 h2
    exact check_apply_ne st ip status now ip2 h2
  · intro t ht
    have hl := check_lastSeen_self st ip status now
    cases hv : (check st ip status now).1 ip with
    | none => rw [hv] at hl; simp at hl
    | some stat =>
        rw [hv] at hl
        simp at hl
        simp [cleanupPass, hv, hl, ht]

/-- Witness for the C10 theorem at a concrete input: a status-200 check
from a fresh IP creates its entry (last seen now), leaves another IP
absent as before, and the entry survives a sweep 30 seconds later. -/
theorem check_always_touches_entry_witness :
    ((check emptyDetector "1.2.3.4" 200 0).1 "1.2.3.4").map
        IPStats.lastSeen = some 0 ∧
    (check emptyDetector "1.2.3.4" 200 0).1 "8.8.8.8" =
      emptyDetector "8.8.8.8" ∧
    ((cleanupPass (check emptyDetector "1.2.3.4" 200 0).1 30)
        "1.2.3.4").map IPStats.lastSeen = some 0 :=
  ⟨(check_always_touches_entry emptyDetector "1.2.3.4" 200 0).1,
   (check_always_touches_entry emptyDetector "1.2.3.4" 200 0).2.1
     "8.8.8.8" (by decide),
   (check_always_touches_entry emptyDetector "1.2.3.4" 200 0).2.2
     30 (by decide)⟩

/-- C10 counterexample.  Accumulated counts do not stay alive across a
sweeper pass: an IP with seven counted 404s that then sends ordinary
status-200 traffic keeps its entry through the next sweep, but the sweep
resets the 404 count to zero. -/
theorem sweep_resets_counts_counterexample :
    ((cleanupPass
        (check
          (fun k => if k = "1.2.3.4" then
              some { count404 := 7, count500 := 0, lastSeen := 0 }
            else none)
          "1.2.3.4" 200 1).1 2) "1.2.3.4").map IPStats.count404 =
      some 0 ∧
    some (0 : Nat) ≠ some 7 := by
  exact ⟨by decide, by decide⟩

/-- A store whose previous process never called `Close`. -/
def runningStore : StoreState :=
  { status := some "running", crashEvents := [], crashMeta := [],
    attacks := [] }

/-- C4.  Opening a store left in status "running" synthesizes exactly
one forceful-shutdown crash event — critical, resolved, zero snapshots —
and persists both its blob and its summary under the fresh id; opening a
store that was closed (status "stopped") synthesizes nothing; either way
the status is "running" after the open, and `Close` sets it to
"stopped". -/
theorem store_unclean_shutdown_detection (st : StoreState)
    (nowStr id : String) :
    ((checkAndMarkRunning st nowStr id).status = some "running") ∧
    ((closeStore st).status = some "stopped") ∧
    ((forcefulShutdownSummary nowStr id).trigger =
        "Forceful Shutdown / Power Loss" ∧
      (forcefulShutdownSummary nowStr id).severity = "critical" ∧
      (forcefulShutdownSummary nowStr id).resolved = true ∧
      (forcefulShutdownSummary nowStr id).snapshotCount = 0) ∧
    (st.status = some "running" → bget st.crashMeta id = none →
      bget st.crashEvents id = none →
        bget (checkAndMarkRunning st nowStr id).crashMeta id =
          some (forcefulShutdownSummary nowStr id) ∧
        (checkAndMarkRunning st nowStr id).crashMeta.length =
          st.crashMeta.length + 1 ∧
        (checkAndMarkRunning st nowStr id).crashEvents.length =
          st.crashEvents.length + 1 ∧
        (∀ k, k ≠ id →
          bget (checkAndMarkRunning st nowStr id).crashMeta k =
            bget st.crashMeta k)) ∧
    (st.status = some "stopped" →
        (checkAndMarkRunning st nowStr id).crashMeta = st.crashMeta ∧
        (checkAndMarkRunning st nowStr id).crashEvents = st.crashEvents) := by
  refine ⟨?_, rfl, ⟨rfl, rfl, rfl, rfl⟩, ?_, ?_⟩
  · unfold checkAndMarkRunning
    split <;> rfl
  · intro hrun hmeta hev
    simp only [checkAndMarkRunning, hrun, if_pos rfl]
    exact ⟨bget_bput_self _ _ _,
      length_bput_fresh _ _ _ hmeta,
      length_bput_fresh _ _ _ hev,
      fun k hk => bget_bput_ne _ _ _ _ hk⟩
  · intro hstop
    have : ¬ st.status = some "running" := by rw [hstop]; simp
    simp [checkAndMarkRunning, this]

/-- Witness for the C4 theorem: a store in status "running" gains the
synthetic summary at the fresh id, while re-opening a properly closed
store leaves the crash buckets untouched. -/
theorem store_unclean_shutdown_detection_witness :
    bget (checkAndMarkRunning runningStore "t0" "id1").crashMeta "id1" =
      some (forcefulShutdownSummary "t0" "id1") ∧
    (checkAndMarkRunning (closeStore runningStore) "t1" "id2").crashMeta =
      (closeStore runningStore).crashMeta :=
  ⟨((store_unclean_shutdown_detection runningStore "t0" "id1").2.2.2.1
      rfl rfl rfl).1,
   ((store_unclean_shutdown_detection (closeStore runningStore) "t1"
      "id2").2.2.2.2 rfl).1⟩

/-- The page field of a paginated result is the page of the options it
was given. -/
theorem paginate_page {α : Type} (all : List α) (opts : ListOpts) :
    (paginate all opts).page = opts.page := by
  simp only [paginate]
  split <;> rfl

/-- The pageSize field of a paginated result is the pageSize of the
options it was given. -/
theorem paginate_pageSize {α : Type} (all : List α) (opts : ListOpts) :
    (paginate all opts).pageSize = opts.pageSize := by
  simp only [paginate]
  split <;> rfl

/-- Normalization of the page number. -/
theorem normalizeOpts_page (opts : ListOpts) :
    (normalizeOpts opts).page = if opts.page < 1 then 1 else opts.page := by
  simp only [normalizeOpts]
  split_ifs <;> rfl

/-- Normalization of the page size. -/
theorem normalizeOpts_pageSize (opts : ListOpts) :
    (normalizeOpts opts).pageSize =
      if opts.pageSize < 1 ∨ opts.pageSize > 100 then 20
      else opts.pageSize := by
  simp only [normalizeOpts]
  split_ifs <;> rfl

/-- C6 (as amended).  For both list queries, a requested page size
outside [1, 100] — whether 0 or 1000 — is replaced by the default 20
(an out-of-range page size is never clamped to 100), and a page below 1
becomes 1. -/
theorem list_page_options_normalized (st : StoreState) (opts : ListOpts) :
    (listAttacks st opts).pageSize =
      (if opts.pageSize < 1 ∨ opts.pageSize > 100 then 20
        else opts.pageSize) ∧
    (listCrashEvents st opts).pageSize =
      (if opts.pageSize < 1 ∨ opts.pageSize > 100 then 20
        else opts.pageSize) ∧
    (listAttacks st opts).page =
      (if opts.page < 1 then 1 else opts.page) ∧
    (listCrashEvents st opts).page =
      (if opts.page < 1 then 1 else opts.page) := by
  refine ⟨?_, ?_, ?_, ?_⟩ <;>
    simp [listAttacks, listCrashEvents, paginate_page, paginate_pageSize,
      normalizeOpts_page, normalizeOpts_pageSize]

/-- List options requesting 1000 items per page. -/
def oversizedOpts : ListOpts :=
  { page := 1, pageSize := 1000, severity := "", trigger := "",
    service := "" }

/-- C6 counterexample.  A requested page size of 1000 is replaced by the
default 20, not clamped to 100 as the claim states. -/
theorem page_size_1000_becomes_default_counterexample :
    (normalizeOpts oversizedOpts).pageSize = 20 ∧
    (listAttacks freshStore oversizedOpts).pageSize = 20 ∧
    (listCrashEvents freshStore oversizedOpts).pageSize = 20 ∧
    (20 : Int) ≠ 100 := by
  refine ⟨by decide, by decide, by decide, by decide⟩

/-- `scanTargets` is the first-some scan of `checkTarget`. -/
theorem scanTargets_eq_findSome (ts : List String) :
    scanTargets ts = ts.findSome? checkTarget := by
  induction ts with
  | nil => rfl
  | cons t ts ih =>
      simp only [scanTargets, List.findSome?]
      cases checkTarget t <;> simp [ih]

/-- C7 (as amended).  Detection is candidate-major, not rule-major: the
candidates {raw path, URL-decoded path, base64-decoded path} are tried
in that order, each against SQL injection, then XSS, then path
traversal; the first candidate with any match decides the result, and
the user-agent scanner check runs only when no candidate matched.
Hence a raw path matching a SQL-injection pattern always yields SQL
Injection/critical, but a raw path matching only an XSS pattern yields
XSS/high even when its decoded form matches a SQL-injection pattern. -/
theorem detect_attack_candidate_major_order (path ua : String) :
    (detectAttack path ua =
      match (attackTargets path).findSome? checkTarget with
      | some r => r
      | none =>
          if scannerMatch ua then
            { detected := true, type := "Scanner", severity := "medium" }
          else { detected := false, type := "", severity := "" }) ∧
    (sqliMatch path = true →
      detectAttack path ua =
        { detected := true, type := "SQL Injection",
          severity := "critical" }) ∧
    (sqliMatch path = false → xssMatch path = true →
      detectAttack path ua =
        { detected := true, type := "XSS", severity := "high" }) := by
  refine ⟨?_, ?_, ?_⟩
  · unfold detectAttack
    rw [scanTargets_eq_findSome]
  · intro hsqli
    simp [detectAttack, attackTargets, scanTargets, checkTarget, hsqli]
  · intro hsqli hxss
    simp [detectAttack, attackTargets, scanTargets, checkTarget, hsqli,
      hxss]

/-- Witness for the C7 theorem: the path `alert(%20union%20select`
matches no SQL-injection pattern raw but matches an XSS pattern, so the
analyzer reports XSS/high. -/
theorem detect_attack_candidate_major_order_witness :
    detectAttack "alert(%20union%20select" "Mozilla/5.0" =
      { detected := true, type := "XSS", severity := "high" } :=
  (detect_attack_candidate_major_order "alert(%20union%20select"
    "Mozilla/5.0").2.2 (by decide) (by decide)

/-- C7 counterexample.  For the path `alert(%20union%20select`, the
URL-decoded candidate (`alert( union select`) is in the candidate set
and matches a SQL-injection pattern, yet the analyzer does not return
SQL Injection/critical: the raw candidate is tried first and its XSS
match wins. -/
theorem decoded_sqli_not_prioritized_counterexample :
    sqliMatch ((queryUnescape "alert(%20union%20select").getD
      "alert(%20union%20select") = true ∧
    ((queryUnescape "alert(%20union%20select").getD
      "alert(%20union%20select") ∈
        attackTargets "alert(%20union%20select" ∧
    detectAttack "alert(%20union%20select" "Mozilla/5.0" ≠
      { detected := true, type := "SQL Injection",
        severity := "critical" } := by
  refine ⟨by decide, by decide, by decide⟩

/-- Invariant of an active or closed crash event: the snapshot list is
non-empty, its first timestamp is `StartedAt` and its last is
`EndedAt`. -/
def eventInv (e : RecCrashEvent) : Prop :=
  e.snapshots ≠ [] ∧
  e.snapshots.head?.map RSnapshot.ts = some e.startedAt ∧
  e.snapshots.getLast?.map RSnapshot.ts = some e.endedAt

/-- Head of a list with one element appended, when the list is
non-empty. -/
theorem head?_append_singleton {α : Type} (l : List α) (x : α)
    (h : l ≠ []) : (l ++ [x]).head? = l.head? := by
  cases l with
  | nil => exact absurd rfl h
  | cons a t => rfl

/-- One poll tick preserves the event invariant on the active event, and
any event it closes is resolved and satisfies the invariant. -/
theorem pollStep_preserves_inv (θ hyst : ℚ)
    (an : List RSnapshot → String × String) (st : Option RecCrashEvent)
    (rd : Reading) (h : ∀ e, st = some e → eventInv e) :
    (∀ e, (pollStep θ hyst an st rd).1 = some e → eventInv e) ∧
    (∀ ev, (pollStep θ hyst an st rd).2 = some ev →
        ev.resolved = true ∧ eventInv ev) := by
  cases htrig : pollTrigger θ rd with
  | some trig =>
      cases st with
      | none =>
          refine ⟨?_, ?_⟩
          · intro e he
            simp only [pollStep, htrig, Option.some.injEq] at he
            subst he
            simp [eventInv]
          · intro ev hev
            simp [pollStep, htrig] at hev
      | some e0 =>
          have hinv := h e0 rfl
          obtain ⟨hne, hhead, hlast⟩ := hinv
          refine ⟨?_, ?_⟩
          · intro e he
            simp only [pollStep, htrig, Option.some.injEq] at he
            subst he
            refine ⟨by simp, ?_, ?_⟩
            · simpa [head?_append_singleton _ _ hne] using hhead
            · simp [List.getLast?_concat]
          · intro ev hev
            simp [pollStep, htrig] at hev
  | none =>
      cases st with
      | none =>
          exact ⟨fun e he => by simp [pollStep, htrig] at he,
                 fun ev hev => by simp [pollStep, htrig] at hev⟩
      | some e0 =>
          have hinv := h e0 rfl
          by_cases hq : rd.cpu < hyst ∧ rd.mem < hyst ∧ rd.disk < hyst ∧
              maxGPUPct rd.gpus < hyst
          · refine ⟨?_, ?_⟩
            · intro e he
              simp [pollStep, htrig, hq] at he
            · intro ev hev
              simp only [pollStep, htrig, if_pos hq,
                Option.some.injEq] at hev
              subst hev
              exact ⟨rfl, hinv.1, hinv.2.1, hinv.2.2⟩
          · refine ⟨?_, ?_⟩
            · intro e he
              simp only [pollStep, htrig, if_neg hq,
                Option.some.injEq] at he
              subst he
              exact hinv
            · intro ev hev
              simp [pollStep, htrig, hq] at hev

/-- Every event a run of poll ticks persists is resolved and satisfies
the event invariant. -/
theorem pollRun_closed_inv (θ hyst : ℚ)
    (an : List RSnapshot → String × String) (rds : List Reading)
    (st : Option RecCrashEvent) (h : ∀ e, st = some e → eventInv e) :
    ∀ ev ∈ (pollRun θ hyst an st rds).2,
      ev.resolved = true ∧ eventInv ev := by
  induction rds generalizing st with
  | nil => simp [pollRun]
  | cons rd rds ih =>
      intro ev hev
      have hstep := pollStep_preserves_inv θ hyst an st rd h
      simp only [pollRun, List.mem_append] at hev
      rcases hev with hev | hev
      · cases hcl : (pollStep θ hyst an st rd).2 with
        | none => rw [hcl] at hev; simp at hev
        | some ev2 =>
            rw [hcl] at hev
            simp only [Option.toList_some, List.mem_singleton] at hev
            subst hev
            exact hstep.2 ev hcl
      · exact ih (pollStep θ hyst an st rd).1 hstep.1 ev hev

/-- C5.  Every crash event the recorder resolves and persists has a
non-empty snapshot list whose first timestamp is the event's
`started_at` and whose last timestamp is the event's `ended_at` (and it
is marked resolved). -/
theorem resolved_events_cover_snapshot_interval (θ hyst : ℚ)
    (an : List RSnapshot → String × String) (rds : List Reading)
    (ev : RecCrashEvent) (h : ev ∈ (pollRun θ hyst an none rds).2) :
    ev.resolved = true ∧ ev.snapshots ≠ [] ∧
    ev.snapshots.head?.map RSnapshot.ts = some ev.startedAt ∧
    ev.snapshots.getLast?.map RSnapshot.ts = some ev.endedAt := by
  have hall := pollRun_closed_inv θ hyst an rds none
    (fun e he => by simp at he) ev h
  exact ⟨hall.1, hall.2.1, hall.2.2.1, hall.2.2.2⟩

/-- The snapshot taken at the opening tick of the hysteresis
scenario. -/
def scenarioSnapshot : RSnapshot :=
  { ts := 0, totalCpuPct := 95, totalMemPct := 10, totalMemGB := 16,
    diskPct := 10, gpus := [] }

/-- The single event the hysteresis scenario closes: opened by the
cpu = 95 tick, carrying only that tick's snapshot. -/
def scenarioClosedEvent : RecCrashEvent :=
  { id := "ev1", startedAt := 0, endedAt := 0, triggerMetric := "cpu",
    triggerValue := 95, verdict := "verdict", severity := "high",
    resolved := true, snapshots := [scenarioSnapshot] }

/-- Witness for the C5 theorem: the event closed by the concrete
hysteresis scenario is resolved, and its snapshot list (a single
snapshot at instant 0) starts at `started_at` and ends at `ended_at`. -/
theorem resolved_events_cover_snapshot_interval_witness :
    scenarioClosedEvent ∈
      (pollRun 90 85 trivialAnalyze none hysteresisScenario).2 ∧
    (scenarioClosedEvent.resolved = true ∧
      scenarioClosedEvent.snapshots ≠ [] ∧
      scenarioClosedEvent.snapshots.head?.map RSnapshot.ts =
        some scenarioClosedEvent.startedAt ∧
      scenarioClosedEvent.snapshots.getLast?.map RSnapshot.ts =
        some scenarioClosedEvent.endedAt) :=
  ⟨by decide,
   resolved_events_cover_snapshot_interval 90 85 trivialAnalyze
     hysteresisScenario scenarioClosedEvent (by decide)⟩

/-- C2 (as amended).  In the cpu 95, 88, 86, 84 scenario with θ = 90 and
hysteresis 85 (= θ − 5, as the constructor computes), exactly one crash
event is produced: it opens at 95, stays open through 88 and 86 (both
below θ but not below the hysteresis, so nothing is appended), and
closes at 84 — containing exactly one snapshot, the one taken at the
opening tick.  A snapshot is appended to the active event only on ticks
where some metric is at or above θ. -/
theorem hysteresis_scenario_single_snapshot :
    recorderHysteresis 90 = 85 ∧
    (pollRun 90 85 trivialAnalyze none (hysteresisScenario.take 1)).1.isSome
      = true ∧
    (pollRun 90 85 trivialAnalyze none (hysteresisScenario.take 2)).1.isSome
      = true ∧
    (pollRun 90 85 trivialAnalyze none (hysteresisScenario.take 3)).1.isSome
      = true ∧
    (pollRun 90 85 trivialAnalyze none (hysteresisScenario.take 3)).2
      = [] ∧
    (pollRun 90 85 trivialAnalyze none hysteresisScenario).1 = none ∧
    (pollRun 90 85 trivialAnalyze none hysteresisScenario).2 =
      [scenarioClosedEvent] := by
  refine ⟨by norm_num [recorderHysteresis], by decide, by decide,
    by decide, by decide, by decide, by decide⟩

/-- C2 counterexample.  In the cpu 95, 88, 86, 84 scenario the closed
event contains one snapshot, not three: the ticks at 88 and 86 leave the
event open but append nothing, because no metric is at or above θ
there. -/
theorem hysteresis_scenario_not_three_snapshots_counterexample :
    recorderHysteresis 90 = 85 ∧
    ((pollRun 90 85 trivialAnalyze none hysteresisScenario).2.map
      (fun e => e.snapshots.length)) = [1] ∧
    ((pollRun 90 85 trivialAnalyze none hysteresisScenario).2.map
      (fun e => e.snapshots.length)) ≠ [3] := by
  refine ⟨by norm_num [recorderHysteresis], by decide, by decide⟩

/-- Well-formedness of a parsed address: octets and bytes fit in eight
bits, and an IPv6 address has exactly sixteen bytes. -/
def GoIP.wellFormed : GoIP → Prop
  | .v4 a b c d => a ≤ 255 ∧ b ≤ 255 ∧ c ≤ 255 ∧ d ≤ 255
  | .v6 bytes => bytes.length = 16 ∧ ∀ x ∈ bytes, x ≤ 255

/-- A parsed dotted-quad octet is at most 255. -/
theorem parseOctet_le_255 (p : List Char) (n : Nat)
    (h : parseOctet p = some n) : n ≤ 255 := by
  simp only [parseOctet] at h
  split_ifs at h with h1 h2
  · simp only [Option.some.injEq] at h
    subst h
    exact h2.1

/-- Dotted-quad parsing produces a well-formed address. -/
theorem parseIPv4_wellFormed (s : String) (ip : GoIP)
    (h : parseIPv4 s = some ip) : ip.wellFormed := by
  simp only [parseIPv4] at h
  split at h
  · split at h
    · next heq1 heq2 heq3 heq4 =>
        simp only [Option.some.injEq] at h
        subst h
        exact ⟨parseOctet_le_255 _ _ heq1, parseOctet_le_255 _ _ heq2,
          parseOctet_le_255 _ _ heq3, parseOctet_le_255 _ _ heq4⟩
    · cases h
  · cases h

/-- Properties of the IPv6 group loop: the produced byte list has the
returned length, every byte fits in eight bits, the length is at most
16, and the recorded ellipsis position does not exceed the length. -/
theorem parseV6Loop_props (fuel : Nat) :
    ∀ (s : List Char) (i : Nat) (acc : List Nat) (ell : Option Nat)
      (bytes : List Nat) (ell2 : Option Nat) (n : Nat),
      acc.length = i → (∀ x ∈ acc, x ≤ 255) → i % 2 = 0 → i ≤ 16 →
      (∀ e, ell = some e → e ≤ i) →
      parseV6Loop fuel s i acc ell = some (bytes, ell2, n) →
      bytes.length = n ∧ (∀ x ∈ bytes, x ≤ 255) ∧ n ≤ 16 ∧
        (∀ e, ell2 = some e → e ≤ n) := by
  induction fuel with
  | zero =>
      intro s i acc ell bytes ell2 n _ _ _ _ _ h
      cases h
  | succ fuel ih =>
      intro s i acc ell bytes ell2 n hlen hbound heven hle hell h
      simp only [parseV6Loop] at h
      split at h
      · -- i < 16
        next hi =>
        split at h
        · cases h
        · next hgroup =>
          have hval : (xtoi s).1 ≤ 0xFFFF := by
            rcases not_or.mp hgroup with ⟨-, hv⟩
            omega
          have hdiv : (xtoi s).1 / 256 ≤ 255 := by omega
          have hmod : (xtoi s).1 % 256 ≤ 255 := by omega
          split at h
          · -- embedded dotted quad
            split at h
            · next hcond =>
              split at h
              · next a b c d heq4 =>
                  simp only [Option.some.injEq, Prod.mk.injEq] at h
                  obtain ⟨hb, he, hn⟩ := h
                  subst hb; subst he; subst hn
                  have hw := parseIPv4_wellFormed _ _ heq4
                  obtain ⟨ha, hbb, hc, hd⟩ := hw
                  refine ⟨by simp [hlen], ?_, by omega, ?_⟩
                  · intro x hx
                    rcases List.mem_append.mp hx with hx | hx
                    · exact hbound x hx
                    · simp only [List.mem_cons, List.mem_singleton] at hx
                      rcases hx with rfl | rfl | rfl | hx
                      · exact ha
                      · exact hbb
                      · exact hc
                      · simp at hx
                        omega
                  · intro e he2
                    have := hell e he2
                    omega
              · cases h
            · cases h
          · -- end of input after a group
            simp only [Option.some.injEq, Prod.mk.injEq] at h
            obtain ⟨hb, he, hn⟩ := h
            subst hb; subst he; subst hn
            refine ⟨by simp [hlen], ?_, by omega, ?_⟩
            · intro x hx
              rcases List.mem_append.mp hx with hx | hx
              · exact hbound x hx
              · simp only [List.mem_cons, List.mem_singleton] at hx
                rcases hx with rfl | rfl | hx
                · exact hdiv
                · exact hmod
                · simp at hx
            · intro e he2
              have := hell e he2
              omega
          · cases h
          · -- double colon
            split at h
            · next hellnone =>
              subst hellnone
              split at h
              · simp only [Option.some.injEq, Prod.mk.injEq] at h
                obtain ⟨hb, he, hn⟩ := h
                subst hb; subst he; subst hn
                refine ⟨by simp [hlen], ?_, by omega, ?_⟩
                · intro x hx
                  rcases List.mem_append.mp hx with hx | hx
                  · exact hbound x hx
                  · simp only [List.mem_cons, List.mem_singleton] at hx
                    rcases hx with rfl | rfl | hx
                    · exact hdiv
                    · exact hmod
                    · simp at hx
                · intro e he2
                  simp only [Option.some.injEq] at he2
                  omega
              · refine ih _ _ _ _ _ _ _ ?_ ?_ ?_ ?_ ?_ h
                · simp [hlen]
                · intro x hx
                  rcases List.mem_append.mp hx with hx | hx
                  · exact hbound x hx
                  · simp only [List.mem_cons, List.mem_singleton] at hx
                    rcases hx with rfl | rfl | hx
                    · exact hdiv
                    · exact hmod
                    · simp at hx
                · omega
                · omega
                · intro e he2
                  simp only [Option.some.injEq] at he2
                  omega
            · cases h
          · -- single colon, next group
            refine ih _ _ _ _ _ _ _ ?_ ?_ ?_ ?_ ?_ h
            · simp [hlen]
            · intro x hx
              rcases List.mem_append.mp hx with hx | hx
              · exact hbound x hx
              · simp only [List.mem_cons, List.mem_singleton] at hx
                rcases hx with rfl | rfl | hx
                · exact hdiv
                · exact hmod
                · simp at hx
            · omega
            · omega
            · intro e he2
              have := hell e he2
              omega
          · cases h
      · -- i ≥ 16, input must be exhausted
        split at h
        · simp only [Option.some.injEq, Prod.mk.injEq] at h
          obtain ⟨hb, he, hn⟩ := h
          subst hb; subst he; subst hn
          exact ⟨hlen, hbound, hle, hell⟩
        · cases h

/-- Assembly of loop results with the loop's invariants yields a
well-formed address. -/
theorem assembleV6_wellFormed (r : Option (List Nat × Option Nat × Nat))
    (ip : GoIP)
    (hp : ∀ bytes ell n, r = some (bytes, ell, n) →
      bytes.length = n ∧ (∀ x ∈ bytes, x ≤ 255) ∧ n ≤ 16 ∧
        (∀ e, ell = some e → e ≤ n))
    (h : assembleV6 r = some ip) : ip.wellFormed := by
  simp only [assembleV6] at h
  split at h
  · cases h
  · next bytes ell n =>
    obtain ⟨hblen, hbbound, hn16, hellle⟩ := hp bytes ell n rfl
    split at h
    · next hlt =>
      split at h
      · cases h
      · next e =>
        have he : e ≤ n := hellle e rfl
        simp only [Option.some.injEq] at h
        subst h
        constructor
        · simp only [List.length_append, List.length_take,
            List.length_replicate, List.length_drop, hblen]
          omega
        · intro x hx
          rcases List.mem_append.mp hx with hx | hx
          · rcases List.mem_append.mp hx with hx | hx
            · exact hbbound x (List.mem_of_mem_take hx)
            · rw [List.eq_of_mem_replicate hx]
              omega
          · exact hbbound x (List.mem_of_mem_drop hx)
    · next hge =>
      split at h
      · simp only [Option.some.injEq] at h
        subst h
        exact ⟨by omega, hbbound⟩
      · cases h

/-- IPv6 parsing produces a well-formed address. -/
theorem parseIPv6_wellFormed (s : String) (ip : GoIP)
    (h : parseIPv6 s = some ip) : ip.wellFormed := by
  simp only [parseIPv6] at h
  split at h
  · simp only [Option.some.injEq] at h
    subst h
    exact ⟨by simp, by intro x hx; rw [List.eq_of_mem_replicate hx]; omega⟩
  · next rest =>
    refine assembleV6_wellFormed _ _ ?_ h
    intro bytes ell n heq
    exact parseV6Loop_props _ _ 0 [] (some 0) bytes ell n rfl
      (by intro x hx; simp at hx) rfl (by omega)
      (fun e he => by cases he; exact Nat.le_refl 0) heq
  · cases h
  · refine assembleV6_wellFormed _ _ ?_ h
    intro bytes ell n heq
    exact parseV6Loop_props _ _ 0 [] none bytes ell n rfl
      (by intro x hx; simp at hx) rfl (by omega)
      (fun e he => by cases he) heq

/-- Go address parsing only yields well-formed addresses. -/
theorem parseIP_wellFormed (s : String) (ip : GoIP)
    (h : parseIP s = some ip) : ip.wellFormed := by
  simp only [parseIP] at h
  split at h
  · exact parseIPv4_wellFormed s ip h
  · exact parseIPv6_wellFormed s ip h
  · cases h

/-- The octets `To4` exposes are within bounds for a well-formed
address. -/
theorem to4_bounds (ip : GoIP) (h : ip.wellFormed) (a b c d : Nat)
    (h4 : ip.to4 = some (a, b, c, d)) :
    a ≤ 255 ∧ b ≤ 255 ∧ c ≤ 255 ∧ d ≤ 255 := by
  cases ip with
  | v4 a0 b0 c0 d0 =>
      simp only [GoIP.to4, Option.some.injEq, Prod.mk.injEq] at h4
      obtain ⟨rfl, rfl, rfl, rfl⟩ := h4
      exact h
  | v6 bytes =>
      simp only [GoIP.to4] at h4
      split at h4
      · split at h4
        · next heq =>
          simp only [Option.some.injEq, Prod.mk.injEq] at h4
          obtain ⟨ha, hb2, hc, hd⟩ := h4
          have hmem : ∀ x ∈ bytes.drop 12, x ≤ 255 := fun x hx =>
            h.2 x (List.mem_of_mem_drop hx)
          rw [heq] at hmem
          refine ⟨?_, ?_, ?_, ?_⟩
          · rw [← ha]; exact hmem _ (by simp)
          · rw [← hb2]; exact hmem _ (by simp)
          · rw [← hc]; exact hmem _ (by simp)
          · rw [← hd]; exact hmem _ (by simp)
        · cases h4
      · cases h4

set_option maxRecDepth 4000 in
/-- For a byte, the Go test `b & 0xF0 == 16` describes exactly the
172.16/12 second-octet range 16..31. -/
theorem land240_eq_16_iff (b : Nat) (hb : b ≤ 255) :
    b &&& 240 = 16 ↔ 16 ≤ b ∧ b ≤ 31 := by
  have hf : ∀ x : Fin 256, (x.val &&& 240 = 16) ↔
      (16 ≤ x.val ∧ x.val ≤ 31) := by decide
  exact hf ⟨b, by omega⟩

set_option maxRecDepth 4000 in
/-- For a byte, the Go test `b & 0xFE == 0xFC` describes exactly the
fc00::/7 first bytes 0xFC and 0xFD. -/
theorem land254_eq_252_iff (b : Nat) (hb : b ≤ 255) :
    b &&& 254 = 252 ↔ b = 252 ∨ b = 253 := by
  have hf : ∀ x : Fin 256, (x.val &&& 254 = 252) ↔
      (x.val = 252 ∨ x.val = 253) := by decide
  exact hf ⟨b, by omega⟩

/-- On well-formed addresses, Go's `IsPrivate` is exactly "RFC 1918 or
ULA" — link-local addresses are not included. -/
theorem isPrivate_iff_rfc1918_or_ula (ip : GoIP) (h : ip.wellFormed) :
    ip.isPrivate = true ↔ (isRFC1918 ip = true ∨ isULA ip = true) := by
  cases h4 : ip.to4 with
  | some q =>
      obtain ⟨a, b, c, d⟩ := q
      have hb : b ≤ 255 := (to4_bounds ip h a b c d h4).2.1
      simp only [GoIP.isPrivate, isRFC1918, isULA, h4,
        decide_eq_true_eq, Bool.false_eq_true, false_or, or_false]
      rw [land240_eq_16_iff b hb]
  | none =>
      cases ip with
      | v4 a b c d => simp [GoIP.to4] at h4
      | v6 bytes =>
          simp only [GoIP.isPrivate, isRFC1918, isULA, h4]
          cases hbytes : bytes with
          | nil => simp
          | cons b0 t =>
              have hb0 : b0 ≤ 255 := h.2 b0 (by rw [hbytes]; simp)
              simp only [List.head?_cons, decide_eq_true_eq,
                Bool.false_eq_true, false_or]
              exact land254_eq_252_iff b0 hb0

/-- C9 (as amended).  `classify_ip` returns "unknown" for the empty
string or "-", "invalid" for an unparseable address, "loopback" for
loopback addresses, "internal" exactly for RFC 1918 and ULA addresses,
and "external" for every other valid address — including link-local
addresses such as 169.254.1.1 and fe80::1, which Go's `IsPrivate` does
not cover. -/
theorem classify_ip_categories (s : String) (ip : GoIP) :
    (classifyIP "" = "unknown" ∧ classifyIP "-" = "unknown") ∧
    (s ≠ "" → s ≠ "-" → parseIP s = none → classifyIP s = "invalid") ∧
    (parseIP s = some ip → ip.isLoopback = true →
      classifyIP s = "loopback") ∧
    (parseIP s = some ip → ip.isLoopback = false →
      (classifyIP s = "internal" ↔
        (isRFC1918 ip = true ∨ isULA ip = true))) ∧
    (parseIP s = some ip → ip.isLoopback = false →
      isRFC1918 ip = false → isULA ip = false →
      classifyIP s = "external") := by
  have hneq : ∀ t : String, parseIP t = some ip → ¬(t = "-" ∨ t = "") := by
    rintro t hp (rfl | rfl)
    · rw [show parseIP "-" = none from rfl] at hp
      cases hp
    · rw [show parseIP "" = none from rfl] at hp
      cases hp
  refine ⟨⟨rfl, rfl⟩, ?_, ?_, ?_, ?_⟩
  · intro h1 h2 hp
    simp [classifyIP, hp, h1, h2]
  · intro hp hloop
    simp [classifyIP, hneq s hp, hp, hloop]
  · intro hp hloop
    have hwf := parseIP_wellFormed s ip hp
    rw [← isPrivate_iff_rfc1918_or_ula ip hwf]
    simp only [classifyIP, if_neg (hneq s hp), hp, hloop,
      Bool.false_eq_true, if_false]
    cases hpriv : ip.isPrivate <;> simp
  · intro hp hloop hrfc hula
    have hwf := parseIP_wellFormed s ip hp
    have hpriv : ip.isPrivate = false := by
      rw [Bool.eq_false_iff]
      intro hc
      rcases (isPrivate_iff_rfc1918_or_ula ip hwf).mp hc with hx | hx
      · rw [hrfc] at hx; cases hx
      · rw [hula] at hx; cases hx
    simp [classifyIP, hneq s hp, hp, hloop, hpriv]

/-- Witness for the C9 theorem: 10.1.2.3 (RFC 1918) classifies as
internal, 8.8.8.8 as external. -/
theorem classify_ip_categories_witness :
    classifyIP "10.1.2.3" = "internal" ∧
    classifyIP "8.8.8.8" = "external" :=
  ⟨((classify_ip_categories "10.1.2.3" (.v4 10 1 2 3)).2.2.2.1
      (by decide) (by decide)).mpr (Or.inl (by decide)),
   (classify_ip_categories "8.8.8.8" (.v4 8 8 8 8)).2.2.2.2
     (by decide) (by decide) (by decide) (by decide)⟩

/-- C9 counterexample.  Link-local addresses are classified "external",
not "internal": Go's `IsPrivate` covers only RFC 1918 and ULA ranges, so
both 169.254.1.1 (IPv4 link-local) and fe80::1 (IPv6 link-local) fall
through to "external". -/
theorem link_local_classified_external_counterexample :
    parseIP "169.254.1.1" = some (.v4 169 254 1 1) ∧
    isLinkLocal (.v4 169 254 1 1) = true ∧
    classifyIP "169.254.1.1" = "external" ∧
    isLinkLocal
      (.v6 [254, 128, 0, 0, 0, 0, 0, 0, 0, 0, 0, 0, 0, 0, 0, 1]) = true ∧
    parseIP "fe80::1" =
      some (.v6 [254, 128, 0, 0, 0, 0, 0, 0, 0, 0, 0, 0, 0, 0, 0, 1]) ∧
    classifyIP "fe80::1" = "external" ∧
    ("external" : String) ≠ "internal" := by
  refine ⟨by decide, by decide, by decide, by decide, by decide,
    by decide, by decide⟩

end LogSentry
